import Mathlib

/-!
Shallow embedding of the task/workflow tracker (CLI `scripts/workflow_cli.py`
and dashboard `app.py`).  Tasks are CSV rows with ten string fields; the two
entry points share near-duplicate CRUD logic over the full task collection.
Python-level failure (an uncaught exception such as `ValueError`) is modelled
by `Option`/`none`; `none` from an operation means the operation raised before
writing, so the stored collection is untouched.
-/

namespace Workflow

/-- A task record: the ten CSV columns, all strings, in on-disk column order
(`FIELDNAMES` in both source files). -/
structure Task where
  id : String
  title : String
  priority : String
  status : String
  due_date : String
  created_date : String
  person : String
  waiting_on : String
  follow_up_date : String
  notes : String
deriving DecidableEq, Repr

/-- A calendar date, as produced by Python `datetime.date`. -/
structure Date where
  year : Nat
  month : Nat
  day : Nat
deriving DecidableEq, Repr

/-- Python `date` ordering is lexicographic on (year, month, day); this is `<`. -/
def dateLt (a b : Date) : Bool :=
  a.year < b.year ∨ (a.year = b.year ∧ (a.month < b.month ∨ (a.month = b.month ∧ a.day < b.day)))

/-- Python `date` ordering, `<=`. -/
def dateLe (a b : Date) : Bool :=
  dateLt a b ∨ a = b

/-- ASCII decimal digit test (the class `\d` of the `_strptime` regular
expressions), spelt as the explicit character class. -/
def isDigitChar (c : Char) : Bool :=
  c = '0' ∨ c = '1' ∨ c = '2' ∨ c = '3' ∨ c = '4' ∨
  c = '5' ∨ c = '6' ∨ c = '7' ∨ c = '8' ∨ c = '9'

/-- The character class `[1-9]` of the `_strptime` regular expressions. -/
def isNonzeroDigit (c : Char) : Bool :=
  c = '1' ∨ c = '2' ∨ c = '3' ∨ c = '4' ∨ c = '5' ∨
  c = '6' ∨ c = '7' ∨ c = '8' ∨ c = '9'

/-- Numeric value of an ASCII digit. -/
def digitVal (c : Char) : Nat :=
  c.toNat - '0'.toNat

/-- Leap-year rule used by `datetime` (proleptic Gregorian). -/
def isLeap (y : Nat) : Bool :=
  (y % 4 = 0 && y % 100 ≠ 0) || y % 400 = 0

/-- Days in a month, per `datetime`; months 1..12. -/
def daysInMonth (y m : Nat) : Nat :=
  if m = 2 then (if isLeap y then 29 else 28)
  else if m = 4 ∨ m = 6 ∨ m = 9 ∨ m = 11 then 30
  else 31

/-- The `%Y` directive of `_strptime`: exactly four decimal digits. Returns
the year value and the unconsumed input, or `none` when the match fails. -/
def matchYear : List Char → Option (Nat × List Char)
  | a :: b :: c :: d :: rest =>
    if isDigitChar a && isDigitChar b && isDigitChar c && isDigitChar d then
      some (((digitVal a * 10 + digitVal b) * 10 + digitVal c) * 10 + digitVal d, rest)
    else none
  | _ => none

/-- The `%m` directive of `_strptime`: the regular expression
`1[0-2]|0[1-9]|[1-9]`, alternatives tried in that order (greedy; no
backtracking is ever needed because a digit can never also be the literal
`-` that follows the directive). -/
def matchMonth : List Char → Option (Nat × List Char)
  | [] => none
  | [c] => if isNonzeroDigit c then some (digitVal c, []) else none
  | c1 :: c2 :: rest =>
    if c1 = '1' then
      if c2 = '0' ∨ c2 = '1' ∨ c2 = '2' then some (10 + digitVal c2, rest)
      else some (1, c2 :: rest)
    else if c1 = '0' then
      if isNonzeroDigit c2 then some (digitVal c2, rest) else none
    else
      if isNonzeroDigit c1 then some (digitVal c1, c2 :: rest) else none

/-- The `%d` directive of `_strptime`: the regular expression
`3[01]|[12]\d|0[1-9]|[1-9]`, alternatives tried in order. -/
def matchDay : List Char → Option (Nat × List Char)
  | [] => none
  | [c] => if isNonzeroDigit c then some (digitVal c, []) else none
  | c1 :: c2 :: rest =>
    if c1 = '3' then
      if c2 = '0' ∨ c2 = '1' then some (30 + digitVal c2, rest)
      else some (3, c2 :: rest)
    else if c1 = '1' ∨ c1 = '2' then
      if isDigitChar c2 then some (10 * digitVal c1 + digitVal c2, rest)
      else some (digitVal c1, c2 :: rest)
    else if c1 = '0' then
      if isNonzeroDigit c2 then some (digitVal c2, rest) else none
    else
      if isNonzeroDigit c1 then some (digitVal c1, c2 :: rest) else none

/-- The function `parse_date` (identical in `workflow_cli.py` and `app.py`): returns `None`
for the empty string, then attempts `datetime.strptime(value, "%Y-%m-%d")`
and returns `None` on `ValueError`.  `strptime` matches the compiled regex
against the string, raises when the match fails or leaves unconverted data,
and then constructs `datetime(year, month, day)`, which raises when the year
is below `MINYEAR = 1` or the day exceeds the days of the month. -/
def parse_date (value : String) : Option Date :=
  if value = "" then none
  else
    match matchYear value.data with
    | none => none
    | some (y, r1) =>
      match r1 with
      | [] => none
      | c1 :: r2 =>
        if c1 = '-' then
          match matchMonth r2 with
          | none => none
          | some (m, r3) =>
            match r3 with
            | [] => none
            | c2 :: r4 =>
              if c2 = '-' then
                match matchDay r4 with
                | none => none
                | some (d, r5) =>
                  if r5 = [] ∧ 1 ≤ y ∧ d ≤ daysInMonth y m then some ⟨y, m, d⟩
                  else none
              else none
        else none

/-- Python `str.isdigit()` restricted to the ASCII range: true iff the string
is non-empty and every character is a decimal digit. -/
def isdigitStr (s : String) : Bool :=
  s.data ≠ [] && s.data.all isDigitChar

/-- Python `int(s)` on an all-digit string: base-10 value (leading zeros
allowed). -/
def strToNat (s : String) : Nat :=
  s.data.foldl (fun a c => a * 10 + digitVal c) 0

/-- The numeric ids of a collection: `int(t["id"])` for every task whose id
passes `isdigit`, in order.  Shared sub-expression of both `next_id`
implementations. -/
def numericIds (tasks : List Task) : List Nat :=
  (tasks.filter (fun t => isdigitStr t.id)).map (fun t => strToNat t.id)

/-- The function `next_id` from `scripts/workflow_cli.py`: returns 1 on an empty list,
otherwise `max(int(t["id"]) for t in tasks if t["id"].isdigit()) + 1`.
`max` over an empty generator raises `ValueError`, modelled by `none`. -/
def next_id_cli (tasks : List Task) : Option Nat :=
  if tasks = [] then some 1
  else
    match (numericIds tasks).max? with
    | some m => some (m + 1)
    | none => none

/-- The function `next_id` from `app.py`: returns 1 on an empty list, otherwise builds the
list of numeric ids and returns `(max(ids) + 1) if ids else 1`. -/
def next_id_app (tasks : List Task) : Nat :=
  if tasks = [] then 1
  else
    match (numericIds tasks).max? with
    | some m => m + 1
    | none => 1

/-- Python `str.strip()` whitespace set, ASCII part (space, tab, newline,
vertical tab, form feed, carriage return). -/
def isPySpace (c : Char) : Bool :=
  c = ' ' ∨ c = '\t' ∨ c = '\n' ∨ c = '\x0b' ∨ c = '\x0c' ∨ c = '\r'

/-- Python `str.strip()`: drop leading and trailing whitespace. -/
def pyStrip (s : String) : String :=
  ⟨((s.data.dropWhile isPySpace).reverse.dropWhile isPySpace).reverse⟩

/-- The function `add_task` from `scripts/workflow_cli.py`, after argument parsing.  No
validation happens: the task is built (with `next_id`, which may raise) and
appended, and the whole collection is written back.  Optional flags default
to `None`, turned into `""` by `or ""`.  `none` as a result means `next_id`
raised, so nothing was written. -/
def add_task_cli (tasks : List Task) (today : String)
    (title priority status : String)
    (due person waiting_on follow_up notes : Option String) :
    Option (List Task) :=
  (next_id_cli tasks).map fun n =>
    tasks ++ [{ id := toString n
                title := title
                priority := priority
                status := status
                due_date := due.getD ""
                created_date := today
                person := person.getD ""
                waiting_on := waiting_on.getD ""
                follow_up_date := follow_up.getD ""
                notes := notes.getD "" }]

/-- The add-task form handler from `app.py`: on submit, if `title.strip()` is
empty an error banner is shown and nothing is written (`none`); otherwise a
task with the stripped title is appended and the collection written back.
The date pickers yield a date or `None`, serialised by `isoformat()`;
they are modelled as the resulting optional strings. -/
def add_app (tasks : List Task) (today : String)
    (title priority status : String)
    (due follow_up : Option String) (person notes : String) :
    Option (List Task) :=
  if pyStrip title = "" then none
  else
    some (tasks ++ [{ id := toString (next_id_app tasks)
                      title := pyStrip title
                      priority := priority
                      status := status
                      due_date := due.getD ""
                      created_date := today
                      person := if person = "" then "" else pyStrip person
                      waiting_on := ""
                      follow_up_date := follow_up.getD ""
                      notes := if notes = "" then "" else pyStrip notes }])

/-- The first-match update loop shared by `mark_done` in `app.py` (returns on
the first task whose id equals the target, after setting its status to
`done` and writing) and `mark_done` in `workflow_cli.py` (sets the status,
breaks, and writes only when a match was found).  Returns the resulting
collection and the found flag; when the flag is false no write happened and
the collection is returned unchanged. -/
def markDoneList : List Task → String → List Task × Bool
  | [], _ => ([], false)
  | t :: ts, target =>
    if t.id = target then ({ t with status := "done" } :: ts, true)
    else
      let r := markDoneList ts target
      (t :: r.1, r.2)

/-- The CLI `mark_done`: the subcommand parses `id` as an `int`, and the
loop compares each stored id against `str(args.id)`. -/
def mark_done_cli (tasks : List Task) (n : Nat) : List Task × Bool :=
  markDoneList tasks (toString n)

/-- The function `delete_task` from `app.py`: keep every task whose id differs from
`str(task_id)`; if the length is unchanged return false without writing,
otherwise write the filtered collection and return true. -/
def delete_task (tasks : List Task) (target : String) : List Task × Bool :=
  let remaining := tasks.filter (fun t => t.id ≠ target)
  if remaining.length = tasks.length then (tasks, false) else (remaining, true)

/-- The function `delete_task` invoked with an integer id (the id is rendered by `str`
before comparison). -/
def delete_task_num (tasks : List Task) (n : Nat) : List Task × Bool :=
  delete_task tasks (toString n)

/-- The function `list_tasks` from `workflow_cli.py`, the data part: apply the status
filter when `--status` was given, then the priority filter when
`--priority` was given, preserving order. -/
def list_tasks (tasks : List Task) (statusF priorityF : Option String) : List Task :=
  let t1 := match statusF with
    | none => tasks
    | some s => tasks.filter (fun t => t.status = s)
  match priorityF with
  | none => t1
  | some p => t1.filter (fun t => t.priority = p)

/-- Open tasks: status differs from `done` (identical in both files). -/
def open_tasks (tasks : List Task) : List Task :=
  tasks.filter (fun t => t.status ≠ "done")

/-- Open tasks with priority `P1` (identical in both files). -/
def p1_tasks (tasks : List Task) : List Task :=
  (open_tasks tasks).filter (fun t => t.priority = "P1")

/-- Open tasks whose `due_date` parses and equals today (identical in both
files). -/
def due_today_tasks (tasks : List Task) (today : Date) : List Task :=
  (open_tasks tasks).filter (fun t => parse_date t.due_date = some today)

/-- Open tasks whose `due_date` parses to a date strictly before today
(identical in both files). -/
def overdue_tasks (tasks : List Task) (today : Date) : List Task :=
  (open_tasks tasks).filter fun t =>
    match parse_date t.due_date with
    | some d => dateLt d today
    | none => false

/-- Open tasks whose status is `waiting` (identical in both files). -/
def waiting_tasks (tasks : List Task) : List Task :=
  (open_tasks tasks).filter (fun t => t.status = "waiting")

/-- Open tasks whose `follow_up_date` parses to a date on or before today
(identical in both files). -/
def followups_tasks (tasks : List Task) (today : Date) : List Task :=
  (open_tasks tasks).filter fun t =>
    match parse_date t.follow_up_date with
    | some d => dateLe d today
    | none => false

/-- What the CLI `dashboard` subcommand prints: the five summary counts, and
the two detail sections, each sliced with `[:10]` before printing. -/
structure DashboardOutput where
  openCount : Nat
  p1Count : Nat
  dueTodayCount : Nat
  overdueCount : Nat
  waitingCount : Nat
  overdueShown : List Task
  followupsShown : List Task
deriving DecidableEq, Repr

/-- The function `dashboard` from `workflow_cli.py`: counts are lengths of the full
filtered lists; the printed detail sections iterate over `overdue[:10]` and
`followups[:10]`. -/
def dashboard_cli (tasks : List Task) (today : Date) : DashboardOutput :=
  { openCount := (open_tasks tasks).length
    p1Count := (p1_tasks tasks).length
    dueTodayCount := (due_today_tasks tasks today).length
    overdueCount := (overdue_tasks tasks today).length
    waitingCount := (waiting_tasks tasks).length
    overdueShown := (overdue_tasks tasks today).take 10
    followupsShown := (followups_tasks tasks today).take 10 }

/-! ### CSV layer

`read_tasks`/`write_tasks` (identical in both files) use `csv.DictReader` and
`csv.DictWriter` over a file opened with `newline=""`, i.e. the `excel`
dialect: delimiter `,`, quote character `"`, `QUOTE_MINIMAL` (a field is
quoted iff it contains the delimiter, the quote character, or a character of
the line terminator `\r\n`; an embedded quote is doubled), rows terminated
by `\r\n`.  The file is modelled as a `List Char`. -/

/-- Characters that force quoting under `QUOTE_MINIMAL` with the `excel`
dialect: delimiter, quotechar, and the characters of the lineterminator. -/
def isCsvSpecial (c : Char) : Bool :=
  c = ',' || c = '"' || c = '\r' || c = '\n'

/-- Terminators of an unquoted field for the reader: delimiter or end of
line. -/
def isFieldEnd (c : Char) : Bool :=
  c = ',' || c = '\r' || c = '\n'

/-- Whether the writer quotes the field (`QUOTE_MINIMAL`). -/
def needsQuoting (s : List Char) : Bool :=
  s.any isCsvSpecial

/-- Writer escaping inside a quoted field: the quote character is doubled. -/
def escapeChar (c : Char) : List Char :=
  if c = '"' then ['"', '"'] else [c]

/-- One field as emitted by the writer. -/
def encodeField (s : List Char) : List Char :=
  if needsQuoting s then '"' :: (s.flatMap escapeChar ++ ['"']) else s

/-- The comma-joined fields of one row (no terminator yet). -/
def encodeRowBody : List (List Char) → List Char
  | [] => []
  | [f] => encodeField f
  | f :: fs => encodeField f ++ ',' :: encodeRowBody fs

/-- One row as emitted by the writer, including the `\r\n` terminator. -/
def encodeRow (fs : List (List Char)) : List Char :=
  encodeRowBody fs ++ ['\r', '\n']

/-- A whole CSV file: the writer emits each row in order. -/
def encodeCSV (rows : List (List (List Char))) : List Char :=
  (rows.map encodeRow).flatten

/-- Reader: consume an unquoted field up to the next delimiter or line end
(which is left in the remainder). -/
def takeUnquoted : List Char → List Char × List Char
  | [] => ([], [])
  | c :: rest =>
    if isFieldEnd c then ([], c :: rest)
    else
      let r := takeUnquoted rest
      (c :: r.1, r.2)

/-- Reader: consume a quoted field after its opening quote; a doubled quote
is an escaped quote, a single quote closes the field.  `none` models an
unterminated quoted field. -/
def takeQuoted : List Char → Option (List Char × List Char)
  | [] => none
  | c :: rest =>
    if c = '"' then
      match rest with
      | c2 :: rest2 =>
        if c2 = '"' then (takeQuoted rest2).map (fun r => ('"' :: r.1, r.2))
        else some ([], rest)
      | [] => some ([], [])
    else (takeQuoted rest).map fun r => (c :: r.1, r.2)

/-- Reader: one field, quoted or not. -/
def parseField : List Char → Option (List Char × List Char)
  | [] => some ([], [])
  | c :: rest => if c = '"' then takeQuoted rest else takeUnquoted (c :: rest)

/-- Reader: one row — fields separated by commas, ended by `\r\n` or end of
input.  The fuel bounds the number of fields. -/
def parseRowAux : Nat → List Char → Option (List (List Char) × List Char)
  | 0, _ => none
  | fuel + 1, l =>
    match parseField l with
    | none => none
    | some (f, rest) =>
      match rest with
      | [] => some ([f], [])
      | c :: r =>
        if c = ',' then
          match parseRowAux fuel r with
          | some (fs, r2) => some (f :: fs, r2)
          | none => none
        else if c = '\r' then
          match r with
          | c2 :: r2 => if c2 = '\n' then some ([f], r2) else none
          | [] => none
        else none

/-- Reader: all rows until the input is exhausted. -/
def parseRowsAux : Nat → List Char → Option (List (List (List Char)))
  | fuel, l =>
    if l = [] then some []
    else
      match fuel with
      | 0 => none
      | fuel + 1 =>
        match parseRowAux (l.length + 1) l with
        | none => none
        | some (fs, rest) => (parseRowsAux fuel rest).map (fs :: ·)

/-- Reader entry point: a CSV file as a list of rows of fields. -/
def parseCSV (s : List Char) : Option (List (List (List Char))) :=
  parseRowsAux (s.length + 1) s

/-- The header row (`FIELDNAMES`, identical in both files). -/
def FIELDNAMES : List String :=
  ["id", "title", "priority", "status", "due_date", "created_date",
   "person", "waiting_on", "follow_up_date", "notes"]

/-- The header row as character lists. -/
def headerRow : List (List Char) :=
  FIELDNAMES.map String.data

/-- A task as the row the `DictWriter` emits: its ten fields in
`FIELDNAMES` order. -/
def taskToRow (t : Task) : List (List Char) :=
  [t.id.data, t.title.data, t.priority.data, t.status.data, t.due_date.data,
   t.created_date.data, t.person.data, t.waiting_on.data,
   t.follow_up_date.data, t.notes.data]

/-- A data row back into a task, as the `DictReader` zips the header with a
ten-field row.  A row of the wrong shape is a structural error (`none`). -/
def rowToTask : List (List Char) → Option Task
  | [i, ti, pr, st, dd, cd, pe, wa, fu, no] =>
    some ⟨i.asString, ti.asString, pr.asString, st.asString, dd.asString,
          cd.asString, pe.asString, wa.asString, fu.asString, no.asString⟩
  | _ => none

/-- The function `write_tasks` (identical in both files): header row then one row per
task, in order, as the resulting file content. -/
def write_tasks (tasks : List Task) : List Char :=
  encodeCSV (headerRow :: tasks.map taskToRow)

/-- The function `read_tasks`: parse the file with `DictReader`; the first row is the
header, every following row is a task.  A malformed file (parse failure,
missing header, wrong row arity) is a structural error, modelled `none`. -/
def read_tasks (s : List Char) : Option (List Task) :=
  match parseCSV s with
  | none => none
  | some [] => none
  | some (hd :: rows) =>
    if hd = headerRow then rows.mapM rowToTask else none

/-! ### Helper lemmas -/

/-- Python `max` of a non-empty list of naturals, phrased via `foldl`. -/
theorem max?_eq_foldl_max (l : List Nat) (h : l ≠ []) :
    l.max? = some (l.foldl Nat.max 0) := by
  cases l with
  | nil => exact absurd rfl h
  | cons a as => simp [List.max?, Nat.zero_max]

/-! ### C1: next_id -/

/-- A task whose id is not made of digits. -/
def nonNumericTask : Task :=
  ⟨"abc", "review notes", "P2", "todo", "", "", "", "", "", ""⟩

/-- C1, counterexample: on a non-empty collection with no all-digit id the
claim says both implementations of `next_id` return 1, but the CLI
implementation takes `max` of an empty generator, which raises `ValueError`
(modelled by `none`); only the dashboard implementation returns 1. -/
theorem C1_counterexample :
    next_id_cli [nonNumericTask] = none ∧ next_id_app [nonNumericTask] = 1 := by
  constructor <;> rfl

/-- C1, amended: the dashboard `next_id` returns (max numeric id) + 1, where
the max of an empty id list is taken as 0 — hence 1 for an empty collection
or one with no numeric id.  The CLI `next_id` returns 1 for an empty
collection and (max numeric id) + 1 when some numeric id exists, but raises
(`none`) on a non-empty collection with no numeric id. -/
theorem C1_amended (tasks : List Task) :
    next_id_app tasks = (numericIds tasks).foldl Nat.max 0 + 1
    ∧ next_id_cli tasks =
        (if tasks = [] then some 1
         else if numericIds tasks = [] then none
         else some ((numericIds tasks).foldl Nat.max 0 + 1)) := by
  constructor
  · unfold next_id_app
    by_cases h : tasks = []
    · subst h; simp [numericIds]
    · simp only [h, if_false]
      cases hn : numericIds tasks with
      | nil => simp [List.max?]
      | cons a as => simp [List.max?, Nat.zero_max]
  · unfold next_id_cli
    by_cases h : tasks = []
    · simp [h]
    · simp only [h, if_false]
      cases hn : numericIds tasks with
      | nil => simp [List.max?]
      | cons a as => simp [List.max?, Nat.zero_max]

/-! ### C2: add validation -/

/-- C2, counterexample: the CLI `add` called with the whitespace-only title
`"   "` does not fail validation — it appends a task (title stored
verbatim) to the collection, even though the title strips to empty. -/
theorem C2_counterexample :
    add_task_cli [] "2024-06-15" "   " "P2" "todo" none none none none none
      = some [⟨"1", "   ", "P2", "todo", "", "2024-06-15", "", "", "", ""⟩]
    ∧ pyStrip "   " = "" := by
  constructor <;> rfl

/-- C2, amended: the dashboard `add` rejects a title that strips to empty and
leaves the store unmutated; the CLI `add` performs no title validation at
all — whenever `next_id` succeeds it appends a task with the title stored
verbatim, whatever the title is. -/
theorem C2_amended (tasks : List Task) (today title priority status : String)
    (due follow_up : Option String) (person notes : String)
    (dueC personC waitingC followC notesC : Option String) :
    (pyStrip title = "" →
      add_app tasks today title priority status due follow_up person notes = none)
    ∧ (∀ n, next_id_cli tasks = some n →
        add_task_cli tasks today title priority status dueC personC waitingC followC notesC
          = some (tasks ++
              [{ id := toString n, title := title, priority := priority,
                 status := status, due_date := dueC.getD "", created_date := today,
                 person := personC.getD "", waiting_on := waitingC.getD "",
                 follow_up_date := followC.getD "", notes := notesC.getD "" }])) := by
  constructor
  · intro h
    simp [add_app, h]
  · intro n hn
    simp [add_task_cli, hn]

/-- C2, witness: both amended halves at a concrete whitespace-only title. -/
theorem C2_amended_witness :
    add_app [] "2024-06-15" "   " "P2" "todo" none none "" "" = none
    ∧ add_task_cli [] "2024-06-15" "   " "P2" "todo" none none none none none
        = some [⟨"1", "   ", "P2", "todo", "", "2024-06-15", "", "", "", ""⟩] :=
  ⟨(C2_amended [] "2024-06-15" "   " "P2" "todo" none none "" ""
      none none none none none).1 (by decide),
   (C2_amended [] "2024-06-15" "   " "P2" "todo" none none "" ""
      none none none none none).2 1 (by decide)⟩

/-! ### C3: mark_done -/

/-- The update loop leaves a collection without a matching id untouched and
reports false (so no write happens). -/
theorem markDoneList_not_found (tasks : List Task) (target : String)
    (h : ∀ t ∈ tasks, t.id ≠ target) :
    markDoneList tasks target = (tasks, false) := by
  induction tasks with
  | nil => rfl
  | cons t ts ih =>
    have ht : t.id ≠ target := h t (by simp)
    simp only [markDoneList, if_neg ht]
    rw [ih fun u hu => h u (by simp [hu])]

/-- The update loop rewrites exactly the first matching task's status. -/
theorem markDoneList_found (pre : List Task) (t : Task) (post : List Task)
    (target : String) (ht : t.id = target) (hpre : ∀ u ∈ pre, u.id ≠ target) :
    markDoneList (pre ++ t :: post) target
      = (pre ++ { t with status := "done" } :: post, true) := by
  induction pre with
  | nil => simp [markDoneList, ht]
  | cons u pre ih =>
    have hu : u.id ≠ target := hpre u (by simp)
    have ih' := ih fun v hv => hpre v (by simp [hv])
    simp only [List.cons_append, markDoneList, if_neg hu, List.append_eq, ih']

/-- C3 (confirmed): `mark_done` on a present id (decomposing the collection
at its first occurrence) replaces exactly that task's status with `done`,
leaving its other fields and all other tasks unchanged, and reports true;
on an absent id it reports false and returns the collection unchanged, so
no write occurs.  Both sources run this same first-match loop. -/
theorem C3_mark_done (tasks : List Task) (target : String) :
    (∀ pre t post, tasks = pre ++ t :: post → t.id = target →
        (∀ u ∈ pre, u.id ≠ target) →
        markDoneList tasks target = (pre ++ { t with status := "done" } :: post, true))
    ∧ ((∀ t ∈ tasks, t.id ≠ target) → markDoneList tasks target = (tasks, false)) := by
  constructor
  · intro pre t post hdec ht hpre
    subst hdec
    exact markDoneList_found pre t post target ht hpre
  · intro h
    exact markDoneList_not_found tasks target h

/-- Two concrete tasks for witnesses. -/
def sampleA : Task := ⟨"1", "write report", "P1", "todo", "2024-06-15", "2024-06-01", "", "", "", ""⟩

/-- Another concrete task. -/
def sampleB : Task := ⟨"2", "call Alex", "P2", "waiting", "", "2024-06-02", "Alex", "reply", "2024-06-15", ""⟩

/-- C3, witness: both halves at a concrete two-task store. -/
theorem C3_mark_done_witness :
    markDoneList [sampleA, sampleB] "2"
      = ([sampleA, { sampleB with status := "done" }], true)
    ∧ markDoneList [sampleA, sampleB] "3" = ([sampleA, sampleB], false) :=
  ⟨(C3_mark_done [sampleA, sampleB] "2").1 [sampleA] sampleB [] rfl rfl (by decide),
   (C3_mark_done [sampleA, sampleB] "3").2 (by decide)⟩

/-! ### C4: delete -/

/-- C4 (confirmed): with unique ids, `delete` on a present id removes exactly
the matching task, keeps the others in their relative order, and returns
true; on an absent id it returns false with the collection unchanged (the
length test fails, so no write occurs). -/
theorem C4_delete (tasks : List Task) (target : String)
    (hnd : (tasks.map Task.id).Nodup) :
    (∀ pre t post, tasks = pre ++ t :: post → t.id = target →
        delete_task tasks target = (pre ++ post, true))
    ∧ ((∀ t ∈ tasks, t.id ≠ target) → delete_task tasks target = (tasks, false)) := by
  constructor
  · intro pre t post hdec ht
    subst hdec
    have hmid : (t.id :: (pre.map Task.id ++ post.map Task.id)).Nodup := by
      refine List.nodup_middle.mp ?_
      simpa using hnd
    have hnotmem : t.id ∉ pre.map Task.id ++ post.map Task.id :=
      (List.nodup_cons.mp hmid).1
    have hpre : ∀ u ∈ pre, u.id ≠ target := by
      intro u hu he
      exact hnotmem (by
        apply List.mem_append_left
        exact ht ▸ he ▸ List.mem_map_of_mem Task.id hu)
    have hpost : ∀ u ∈ post, u.id ≠ target := by
      intro u hu he
      exact hnotmem (by
        apply List.mem_append_right
        exact ht ▸ he ▸ List.mem_map_of_mem Task.id hu)
    have hfilter :
        (pre ++ t :: post).filter (fun u => u.id ≠ target) = pre ++ post := by
      rw [List.filter_append]
      have h1 : pre.filter (fun u => u.id ≠ target) = pre :=
        List.filter_eq_self.mpr fun u hu => by simpa using hpre u hu
      have h2 : (t :: post).filter (fun u => u.id ≠ target) = post := by
        rw [List.filter_cons_of_neg (by simpa using ht)]
        exact List.filter_eq_self.mpr fun u hu => by simpa using hpost u hu
      rw [h1, h2]
    have hlen : (pre ++ post).length ≠ (pre ++ t :: post).length := by
      simp only [List.length_append, List.length_cons]
      omega
    simp only [delete_task, hfilter, if_neg hlen]
  · intro h
    have hfilter : tasks.filter (fun u => u.id ≠ target) = tasks :=
      List.filter_eq_self.mpr fun u hu => by simpa using h u hu
    simp only [delete_task, hfilter, if_pos rfl]
    simp

/-- C4, witness: both halves at a concrete two-task store with unique ids. -/
theorem C4_delete_witness :
    delete_task [sampleA, sampleB] "1" = ([sampleB], true)
    ∧ delete_task [sampleA, sampleB] "3" = ([sampleA, sampleB], false) :=
  ⟨(C4_delete [sampleA, sampleB] "1" (by decide)).1 [] sampleA [sampleB] rfl rfl,
   (C4_delete [sampleA, sampleB] "3" (by decide)).2 (by decide)⟩

/-! ### C5: dashboard aggregate -/

/-- Fixed `today` for the aggregate scenario of the spec. -/
def scToday : Date := ⟨2024, 6, 15⟩

/-- Scenario task 1: open, P1, due today. -/
def scT1 : Task := ⟨"1", "prepare deck", "P1", "todo", "2024-06-15", "2024-06-01", "", "", "", ""⟩

/-- Scenario task 2: done, P1, due yesterday. -/
def scT2 : Task := ⟨"2", "old filing", "P1", "done", "2024-06-14", "2024-06-01", "", "", "", ""⟩

/-- Scenario task 3: waiting, P2, follow-up today. -/
def scT3 : Task := ⟨"3", "ping vendor", "P2", "waiting", "", "2024-06-01", "Sam", "quote", "2024-06-15", ""⟩

/-- C5 (confirmed): every aggregate bucket ranges over open tasks only
(status not `done`), with the stated date conditions; and the spec's
three-task scenario produces counts open 2, P1 1, due-today 1, overdue 0,
waiting 1, follow-ups-due 1. -/
theorem C5_dashboard_aggregate :
    (∀ (tasks : List Task) (today : Date) (t : Task),
      (t ∈ open_tasks tasks ↔ t ∈ tasks ∧ t.status ≠ "done")
      ∧ (t ∈ p1_tasks tasks ↔ t ∈ tasks ∧ t.status ≠ "done" ∧ t.priority = "P1")
      ∧ (t ∈ due_today_tasks tasks today ↔
          t ∈ tasks ∧ t.status ≠ "done" ∧ parse_date t.due_date = some today)
      ∧ (t ∈ overdue_tasks tasks today ↔
          t ∈ tasks ∧ t.status ≠ "done" ∧
            ∃ d, parse_date t.due_date = some d ∧ dateLt d today = true)
      ∧ (t ∈ waiting_tasks tasks ↔ t ∈ tasks ∧ t.status ≠ "done" ∧ t.status = "waiting")
      ∧ (t ∈ followups_tasks tasks today ↔
          t ∈ tasks ∧ t.status ≠ "done" ∧
            ∃ d, parse_date t.follow_up_date = some d ∧ dateLe d today = true))
    ∧ dashboard_cli [scT1, scT2, scT3] scToday = ⟨2, 1, 1, 0, 1, [], [scT3]⟩
    ∧ (followups_tasks [scT1, scT2, scT3] scToday).length = 1 := by
  refine ⟨?_, by decide, by decide⟩
  intro tasks today t
  refine ⟨?_, ?_, ?_, ?_, ?_, ?_⟩
  · simp [open_tasks, List.mem_filter]
  · simp only [p1_tasks, open_tasks, List.mem_filter, decide_eq_true_eq, ne_eq,
      decide_not, Bool.not_eq_eq_eq_not, Bool.not_true, decide_eq_false_iff_not]
    tauto
  · simp only [due_today_tasks, open_tasks, List.mem_filter, decide_eq_true_eq, ne_eq,
      decide_not, Bool.not_eq_eq_eq_not, Bool.not_true, decide_eq_false_iff_not]
    tauto
  · rcases hp : parse_date t.due_date with _ | d <;>
      (simp [overdue_tasks, open_tasks, List.mem_filter, hp, and_assoc]; try tauto)
  · simp only [waiting_tasks, open_tasks, List.mem_filter, decide_eq_true_eq, ne_eq,
      decide_not, Bool.not_eq_eq_eq_not, Bool.not_true, decide_eq_false_iff_not]
    tauto
  · rcases hp : parse_date t.follow_up_date with _ | d <;>
      (simp [followups_tasks, open_tasks, List.mem_filter, hp, and_assoc]; try tauto)

/-! ### C8: list filters -/

/-- C8 (confirmed): the two sequential `if`-guarded filters of `list_tasks`
equal one filter by the conjunction of the provided filters (no filter
means no restriction), and the result is a filter of the original list, so
on-disk order is preserved.  In particular a `status=waiting` listing is
exactly the open tasks whose status is `waiting`, in order. -/
theorem C8_list_filters (tasks : List Task) (statusF priorityF : Option String) :
    list_tasks tasks statusF priorityF
      = tasks.filter (fun t =>
          (match statusF with | none => true | some s => t.status = s)
          && (match priorityF with | none => true | some p => t.priority = p))
    ∧ list_tasks tasks (some "waiting") none
        = (open_tasks tasks).filter (fun t => t.status = "waiting") := by
  constructor
  · cases statusF <;> cases priorityF <;>
      simp [list_tasks, List.filter_filter, Bool.and_comm]
  · simp only [list_tasks, open_tasks, List.filter_filter]
    refine List.filter_congr ?_
    intro t ht
    by_cases h : t.status = "waiting" <;> simp [h]

/-! ### C9: exact string id matching -/

/-- The first-match loop finds something iff some stored id is literally the
target string. -/
theorem markDoneList_flag_iff (tasks : List Task) (target : String) :
    (markDoneList tasks target).2 = true ↔ ∃ t ∈ tasks, t.id = target := by
  induction tasks with
  | nil => simp [markDoneList]
  | cons t ts ih =>
    by_cases h : t.id = target <;> simp [markDoneList, h, ih]

/-- The delete length test reports a removal iff some stored id is literally
the target string. -/
theorem delete_flag_iff (tasks : List Task) (target : String) :
    (delete_task tasks target).2 = true ↔ ∃ t ∈ tasks, t.id = target := by
  unfold delete_task
  by_cases h : (tasks.filter (fun u => u.id ≠ target)).length = tasks.length
  · have heq : tasks.filter (fun u => u.id ≠ target) = tasks :=
      (List.filter_sublist tasks).eq_of_length h
    have hall := List.filter_eq_self.mp heq
    simp only [if_pos h, Bool.false_eq_true, false_iff]
    rintro ⟨t, ht, he⟩
    have := hall t ht
    simp [he] at this
  · simp only [if_neg h, true_iff]
    by_contra hno
    push_neg at hno
    exact h (congrArg List.length
      (List.filter_eq_self.mpr fun t ht => by simpa using hno t ht))

/-- A task whose id has a leading zero. -/
def zeroPadTask : Task := ⟨"01", "archive box", "P3", "todo", "", "", "", "", "", ""⟩

/-- C9 (confirmed): `mark_done` and `delete` match a task iff its stored id
string equals the decimal rendering of the given integer; a stored id
`"01"` is never matched by an operation on id 1, although both render the
same number. -/
theorem C9_exact_id_match :
    (∀ (tasks : List Task) (n : Nat),
      ((mark_done_cli tasks n).2 = true ↔ ∃ t ∈ tasks, t.id = toString n)
      ∧ ((delete_task_num tasks n).2 = true ↔ ∃ t ∈ tasks, t.id = toString n))
    ∧ mark_done_cli [zeroPadTask] 1 = ([zeroPadTask], false)
    ∧ delete_task_num [zeroPadTask] 1 = ([zeroPadTask], false)
    ∧ strToNat "01" = strToNat "1" := by
  refine ⟨?_, by decide, by decide, by decide⟩
  intro tasks n
  exact ⟨markDoneList_flag_iff tasks (toString n), delete_flag_iff tasks (toString n)⟩

/-! ### C10: dashboard truncation -/

/-- C10 (confirmed): the printed detail sections are the first 10 elements of
the overdue and follow-ups-due lists (so at most 10, a prefix, and the
whole list whenever it has at most 10 elements), while the printed summary
count is the length of the full overdue list. -/
theorem C10_dashboard_truncation (tasks : List Task) (today : Date) :
    (dashboard_cli tasks today).overdueShown = (overdue_tasks tasks today).take 10
    ∧ (dashboard_cli tasks today).overdueShown.length ≤ 10
    ∧ (dashboard_cli tasks today).overdueShown <+: overdue_tasks tasks today
    ∧ (dashboard_cli tasks today).overdueCount = (overdue_tasks tasks today).length
    ∧ ((overdue_tasks tasks today).length ≤ 10 →
        (dashboard_cli tasks today).overdueShown = overdue_tasks tasks today)
    ∧ (dashboard_cli tasks today).followupsShown = (followups_tasks tasks today).take 10
    ∧ (dashboard_cli tasks today).followupsShown.length ≤ 10
    ∧ (dashboard_cli tasks today).followupsShown <+: followups_tasks tasks today
    ∧ ((followups_tasks tasks today).length ≤ 10 →
        (dashboard_cli tasks today).followupsShown = followups_tasks tasks today) := by
  refine ⟨rfl, ?_, ?_, rfl, ?_, rfl, ?_, ?_, ?_⟩
  · rw [show (dashboard_cli tasks today).overdueShown
        = (overdue_tasks tasks today).take 10 from rfl, List.length_take]
    exact min_le_left _ _
  · exact List.take_prefix 10 _
  · exact fun h => List.take_of_length_le h
  · rw [show (dashboard_cli tasks today).followupsShown
        = (followups_tasks tasks today).take 10 from rfl, List.length_take]
    exact min_le_left _ _
  · exact List.take_prefix 10 _
  · exact fun h => List.take_of_length_le h

/-- C10, witness: the conditional conjuncts at the empty store. -/
theorem C10_dashboard_truncation_witness :
    (dashboard_cli [] scToday).overdueShown = overdue_tasks [] scToday
    ∧ (dashboard_cli [] scToday).followupsShown = followups_tasks [] scToday :=
  ⟨(C10_dashboard_truncation [] scToday).2.2.2.2.1 (by decide),
   (C10_dashboard_truncation [] scToday).2.2.2.2.2.2.2.2 (by decide)⟩

/-! ### C6: parse_date -/

/-- A date `datetime.date` would accept: positive year, month 1..12, day
within the month. -/
def validDate (d : Date) : Prop :=
  1 ≤ d.year ∧ 1 ≤ d.month ∧ d.month ≤ 12 ∧ 1 ≤ d.day ∧ d.day ≤ daysInMonth d.year d.month

/-- A digit's value is at most 9. -/
theorem digitVal_le_nine (c : Char) (h : isDigitChar c = true) : digitVal c ≤ 9 := by
  simp only [isDigitChar, decide_eq_true_eq] at h
  rcases h with rfl | rfl | rfl | rfl | rfl | rfl | rfl | rfl | rfl | rfl <;> decide

/-- A nonzero digit's value is between 1 and 9. -/
theorem digitVal_nonzero_bounds (c : Char) (h : isNonzeroDigit c = true) :
    1 ≤ digitVal c ∧ digitVal c ≤ 9 := by
  simp only [isNonzeroDigit, decide_eq_true_eq] at h
  rcases h with rfl | rfl | rfl | rfl | rfl | rfl | rfl | rfl | rfl <;> decide

/-- A successful `%m` match yields a month between 1 and 12. -/
theorem matchMonth_bounds (l : List Char) (m : Nat) (r : List Char)
    (h : matchMonth l = some (m, r)) : 1 ≤ m ∧ m ≤ 12 := by
  match l with
  | [] => simp [matchMonth] at h
  | [c] =>
    simp only [matchMonth] at h
    split_ifs at h with hc
    · obtain ⟨h1, h2⟩ := digitVal_nonzero_bounds c hc
      cases h
      omega
  | c1 :: c2 :: rest =>
    simp only [matchMonth] at h
    split_ifs at h with h1 h2 h3 h4 h5
    · rcases h2 with rfl | rfl | rfl <;> (cases h; decide)
    · cases h; decide
    · obtain ⟨hl, hr⟩ := digitVal_nonzero_bounds c2 h4
      cases h
      omega
    · obtain ⟨hl, hr⟩ := digitVal_nonzero_bounds c1 h5
      cases h
      omega

/-- A successful `%d` match yields a positive day. -/
theorem matchDay_pos (l : List Char) (d : Nat) (r : List Char)
    (h : matchDay l = some (d, r)) : 1 ≤ d := by
  match l with
  | [] => simp [matchDay] at h
  | [c] =>
    simp only [matchDay] at h
    split_ifs at h with hc
    · obtain ⟨h1, _⟩ := digitVal_nonzero_bounds c hc
      cases h
      omega
  | c1 :: c2 :: rest =>
    simp only [matchDay] at h
    split_ifs at h with h1 h2 h3 h4 h5 h6
    · rcases h2 with rfl | rfl <;> (cases h; decide)
    · cases h; decide
    · rcases h3 with rfl | rfl <;> cases h
      · have hv : digitVal '1' = 1 := by decide
        omega
      · have hv : digitVal '2' = 2 := by decide
        omega
    · rcases h3 with rfl | rfl <;> (cases h; decide)
    · obtain ⟨hl, _⟩ := digitVal_nonzero_bounds c2 h6
      cases h
      omega
    · rename_i h7
      obtain ⟨hl, _⟩ := digitVal_nonzero_bounds c1 h7
      cases h
      omega

/-- Any date `parse_date` returns is a valid calendar date: the `%m` class
bounds the month, the `%d` class with the `datetime` constructor check
bounds the day, and `MINYEAR` bounds the year. -/
theorem parse_date_valid (s : String) (dd : Date) (h : parse_date s = some dd) :
    validDate dd := by
  unfold parse_date at h
  split_ifs at h
  rcases hY : matchYear s.data with _ | ⟨y, r1⟩ <;> rw [hY] at h
  · exact absurd h (by simp)
  · rcases r1 with _ | ⟨c1, r2⟩
    · exact absurd h (by simp)
    · simp only at h
      split_ifs at h
      rcases hM : matchMonth r2 with _ | ⟨m, r3⟩ <;> rw [hM] at h
      · exact absurd h (by simp)
      · rcases r3 with _ | ⟨c2, r4⟩
        · exact absurd h (by simp)
        · simp only at h
          split_ifs at h
          rcases hD : matchDay r4 with _ | ⟨d, r5⟩ <;> rw [hD] at h
          · exact absurd h (by simp)
          · simp only at h
            split_ifs at h with hcond
            · obtain ⟨-, hy, hday⟩ := hcond
              obtain ⟨hm1, hm2⟩ := matchMonth_bounds r2 m (c2 :: r4) hM
              have hd1 := matchDay_pos r4 d r5 hD
              cases h
              exact ⟨hy, hm1, hm2, hd1, hday⟩

/-- C6, counterexample: `"2024-1-9"` is not a `YYYY-MM-DD` string (month and
day are unpadded), yet `parse_date` returns a date for it rather than
"absent". -/
theorem C6_counterexample :
    parse_date "2024-1-9" = some ⟨2024, 1, 9⟩ ∧ "2024-1-9" ≠ "2024-01-09" := by
  constructor <;> decide

/-- C6, amended: `parse_date` never raises (it is total into `Option`);
it returns "absent" for the empty string and for every string the
`%Y-%m-%d` format rejects — including calendar-invalid dates such as
`2024-02-30` — and a valid calendar date otherwise; but the format also
accepts unpadded single-digit months and days such as `"2024-1-9"`, which
are not of the shape `YYYY-MM-DD`. -/
theorem C6_amended :
    (∀ s dd, parse_date s = some dd → validDate dd)
    ∧ parse_date "" = none
    ∧ parse_date "not-a-date" = none
    ∧ parse_date "2024-02-30" = none
    ∧ parse_date "2024-02-29" = some ⟨2024, 2, 29⟩
    ∧ parse_date "2024-1-9" = some ⟨2024, 1, 9⟩ :=
  ⟨parse_date_valid, rfl, by decide, by decide, by decide, by decide⟩

/-- C6, witness: the general half of the amended claim applied at the leap
day. -/
theorem C6_amended_witness : validDate ⟨2024, 2, 29⟩ :=
  C6_amended.1 "2024-02-29" ⟨2024, 2, 29⟩ (by decide)

/-! ### C7: save/load round trip -/

/-- A field terminator is never the quote character. -/
theorem isFieldEnd_ne_quote (d : Char) (h : isFieldEnd d = true) : d ≠ '"' := by
  simp only [isFieldEnd, Bool.or_eq_true, decide_eq_true_eq] at h
  rcases h with (rfl | rfl) | rfl <;> decide

/-- A field terminator is a special character. -/
theorem isFieldEnd_special (d : Char) (h : isFieldEnd d = true) : isCsvSpecial d = true := by
  simp only [isFieldEnd, Bool.or_eq_true, decide_eq_true_eq] at h
  rcases h with (rfl | rfl) | rfl <;> decide

/-- Unfolding: the quoted-field scanner on a non-quote head. -/
theorem takeQuoted_cons_ne (c : Char) (rest : List Char) (hc : c ≠ '"') :
    takeQuoted (c :: rest) = (takeQuoted rest).map fun p => (c :: p.1, p.2) := by
  cases rest <;> simp [takeQuoted, hc]

/-- Unfolding: the quoted-field scanner at a closing quote. -/
theorem takeQuoted_quote_cons_ne (d : Char) (r : List Char) (hd : d ≠ '"') :
    takeQuoted ('"' :: d :: r) = some ([], d :: r) := by
  simp [takeQuoted, hd]

/-- Unfolding: the quoted-field scanner at a doubled quote. -/
theorem takeQuoted_quote_quote (rest : List Char) :
    takeQuoted ('"' :: '"' :: rest) = (takeQuoted rest).map fun p => ('"' :: p.1, p.2) := by
  simp [takeQuoted]

/-- The unquoted-field scanner consumes exactly a terminator-free prefix. -/
theorem takeUnquoted_encode (f : List Char) (d : Char) (r : List Char)
    (hf : ∀ c ∈ f, isFieldEnd c = false) (hd : isFieldEnd d = true) :
    takeUnquoted (f ++ d :: r) = (f, d :: r) := by
  induction f with
  | nil => simp [takeUnquoted, hd]
  | cons c f ih =>
    have hc : isFieldEnd c = false := hf c (by simp)
    have ih' := ih fun x hx => hf x (by simp [hx])
    simp [takeUnquoted, hc, ih']

/-- The quoted-field scanner undoes quote doubling, stopping at the closing
quote (the next character is not a quote). -/
theorem takeQuoted_encode (f : List Char) (d : Char) (r : List Char) (hd : d ≠ '"') :
    takeQuoted (f.flatMap escapeChar ++ '"' :: d :: r) = some (f, d :: r) := by
  induction f with
  | nil =>
    simpa using takeQuoted_quote_cons_ne d r hd
  | cons c f ih =>
    by_cases hc : c = '"'
    · subst hc
      show takeQuoted ('"' :: '"' :: (f.flatMap escapeChar ++ '"' :: d :: r))
            = some ('"' :: f, d :: r)
      rw [takeQuoted_quote_quote, ih]
      rfl
    · simp only [List.flatMap_cons, escapeChar, if_neg hc, List.cons_append,
        List.singleton_append, List.nil_append]
      rw [takeQuoted_cons_ne c _ hc, ih]
      rfl

/-- The field reader inverts the field writer when a terminator follows. -/
theorem parseField_encode (f : List Char) (d : Char) (r : List Char)
    (hd : isFieldEnd d = true) :
    parseField (encodeField f ++ d :: r) = some (f, d :: r) := by
  by_cases hq : needsQuoting f = true
  · simp only [encodeField, if_pos hq, List.cons_append, List.append_assoc,
      List.singleton_append]
    simp [parseField, takeQuoted_encode f d r (isFieldEnd_ne_quote d hd)]
  · have hclean : ∀ c ∈ f, isCsvSpecial c = false := by
      intro c hc
      by_contra hcs
      exact hq (List.any_eq_true.mpr ⟨c, hc, by simpa using hcs⟩)
    have hfe : ∀ c ∈ f, isFieldEnd c = false := by
      intro c hc
      by_contra hfe
      have := isFieldEnd_special c (by simpa using hfe)
      simp [hclean c hc] at this
    simp only [encodeField, if_neg hq]
    cases f with
    | nil =>
      have hdq : d ≠ '"' := isFieldEnd_ne_quote d hd
      simp [parseField, hdq, takeUnquoted, hd]
    | cons c f =>
      have hcq : c ≠ '"' := by
        intro he
        have := hclean c (by simp)
        rw [he] at this
        simp [isCsvSpecial] at this
      simp only [List.cons_append, parseField, if_neg hcq]
      exact congrArg some (takeUnquoted_encode (c :: f) d r hfe hd)

/-- The row reader inverts the row writer (any positive fuel bounds work). -/
theorem parseRowAux_encode (fs : List (List Char)) (rest : List Char) (fuel : Nat)
    (hne : fs ≠ []) (hfuel : fs.length ≤ fuel) :
    parseRowAux fuel (encodeRowBody fs ++ '\r' :: '\n' :: rest) = some (fs, rest) := by
  induction fs generalizing fuel rest with
  | nil => exact absurd rfl hne
  | cons f fs ih =>
    cases fuel with
    | zero => simp at hfuel
    | succ fuel =>
      cases fs with
      | nil =>
        have hp := parseField_encode f '\r' ('\n' :: rest) (by decide)
        simp only [encodeRowBody]
        simp [parseRowAux, hp]
      | cons f2 fs =>
        have hp := parseField_encode f ','
          (encodeRowBody (f2 :: fs) ++ '\r' :: '\n' :: rest) (by decide)
        have ih' := ih rest fuel (by simp) (by simpa using Nat.le_of_succ_le_succ hfuel)
        simp only [encodeRowBody, List.append_assoc, List.cons_append]
        simp [parseRowAux, hp, ih']

/-- A row has at most one more field than its encoding has characters. -/
theorem encodeRowBody_length (fs : List (List Char)) (hne : fs ≠ []) :
    fs.length ≤ (encodeRowBody fs).length + 1 := by
  induction fs with
  | nil => exact absurd rfl hne
  | cons f fs ih =>
    cases fs with
    | nil => simp [encodeRowBody]
    | cons f2 fs2 =>
      have := ih (by simp)
      simp only [encodeRowBody, List.length_append, List.length_cons] at *
      omega

/-- There are at most as many rows as characters in their encoding. -/
theorem encodeCSV_length (rows : List (List (List Char))) :
    rows.length ≤ (encodeCSV rows).length := by
  induction rows with
  | nil => exact Nat.zero_le _
  | cons row rows ih =>
    simp only [encodeCSV, List.map_cons, List.flatten_cons, List.length_append,
      List.length_cons, encodeRow] at *
    omega

/-- The rows reader inverts the whole-file writer, given enough fuel and no
empty rows. -/
theorem parseRowsAux_encode (rows : List (List (List Char))) (fuel : Nat)
    (hfuel : rows.length ≤ fuel) (hne : ∀ r ∈ rows, r ≠ []) :
    parseRowsAux fuel (encodeCSV rows) = some rows := by
  induction rows generalizing fuel with
  | nil =>
    show parseRowsAux fuel [] = some []
    rw [parseRowsAux.eq_def]
    simp
  | cons row rows ih =>
    cases fuel with
    | zero => simp at hfuel
    | succ fuel =>
      have hrow : row ≠ [] := hne row (by simp)
      have hshape : encodeCSV (row :: rows)
          = encodeRowBody row ++ '\r' :: '\n' :: encodeCSV rows := by
        simp [encodeCSV, encodeRow]
      have hnonnil : encodeCSV (row :: rows) ≠ [] := by
        rw [hshape]
        intro hcontra
        exact absurd (congrArg List.length hcontra) (by simp)
      have hlen : row.length
          ≤ (encodeRowBody row ++ '\r' :: '\n' :: encodeCSV rows).length + 1 := by
        have h1 := encodeRowBody_length row hrow
        simp only [List.length_append, List.length_cons]
        omega
      have hp : parseRowAux ((encodeCSV (row :: rows)).length + 1) (encodeCSV (row :: rows))
          = some (row, encodeCSV rows) := by
        rw [hshape]
        exact parseRowAux_encode row (encodeCSV rows) _ hrow hlen
      have ih' := ih fuel (by simpa using Nat.le_of_succ_le_succ hfuel)
        (fun r hr => hne r (by simp [hr]))
      rw [parseRowsAux.eq_def]
      simp only [if_neg hnonnil, hp, ih']
      rfl

/-- Reading a task row back yields the task. -/
theorem rowToTask_taskToRow (t : Task) : rowToTask (taskToRow t) = some t := rfl

/-- Reading back all task rows yields the tasks. -/
theorem mapM_rowToTask (tasks : List Task) :
    (tasks.map taskToRow).mapM rowToTask = some tasks := by
  induction tasks with
  | nil => rfl
  | cons t ts ih =>
    rw [List.map_cons, List.mapM_cons, rowToTask_taskToRow, ih]
    rfl

/-- C7 (confirmed): writing any task collection and reading it back yields
the same collection, field for field and in the same order. -/
theorem C7_roundtrip (tasks : List Task) :
    read_tasks (write_tasks tasks) = some tasks := by
  have hrows : parseCSV (write_tasks tasks) = some (headerRow :: tasks.map taskToRow) := by
    unfold parseCSV write_tasks
    refine parseRowsAux_encode _ _ ?_ ?_
    · exact Nat.le_succ_of_le (encodeCSV_length _)
    · intro r hr
      rcases List.mem_cons.mp hr with rfl | hr
      · simp [headerRow, FIELDNAMES]
      · rcases List.mem_map.mp hr with ⟨t, -, rfl⟩
        simp [taskToRow]
  unfold read_tasks
  rw [hrows]
  simp only [if_pos rfl]
  exact mapM_rowToTask tasks

end Workflow
